import Mathlib

/-!
Verification of the orbit-command repository (Flask burn scheduler `app.py`
plus the 1 Hz propagation loop `orbit_simulator.py`) against its
natural-language specification.

The telemetry record shared through `telemetry_data.json` is embedded as a
Lean structure; Python floats are idealised as real numbers, Python ints as
`Int`.  The per-tick body of the simulator's `while True` loop becomes the
pure function `tick`, and the `/send-command` handler becomes
`send_command`, with the fallibility of the surrounding I/O (store read,
audit-log append) made explicit as boolean environment parameters.
-/

namespace Orbit

/-- GM constant from the source: 398600.4418 km^3/s^2. -/
def GM : ℝ := 398600.4418

/-- EARTH_R constant from the source: 6371 km. -/
def EARTH_R : ℝ := 6371

/-- MAX_DUR constant from `app.py`: 60 seconds. -/
def MAX_DUR : ℤ := 60

/-- `math.hypot(x, y)` of Python: the Euclidean norm `sqrt (x^2 + y^2)`. -/
noncomputable def hypot (x y : ℝ) : ℝ := Real.sqrt (x ^ 2 + y ^ 2)

/-- The telemetry record stored in `telemetry_data.json`.  The three burn
fields are optional: in the JSON document they are present only while a burn
is active (`tm.pop` removes them). -/
structure State where
  vx : ℝ
  vy : ℝ
  radius : ℝ
  altitude : ℝ
  angle : ℝ
  status : String
  burn_rate_x : Option ℝ
  burn_rate_y : Option ℝ
  burn_remaining : Option ℤ


/-- The f-string `f"Burning: \x7bn\x7bs remaining"` used by both the command
handler and the simulator. -/
def burningStatus (n : ℤ) : String := "Burning: " ++ toString n ++ "s remaining"

/-- The initial telemetry document written by `app.py` when
`telemetry_data.json` does not exist: `vx=7.5, vy=0.0, radius=6371+500,
angle=0.0, status="Idle", altitude=radius-6371`; no burn fields. -/
def initState : State :=
  { vx := 7.5
    vy := 0.0
    radius := EARTH_R + 500
    altitude := (EARTH_R + 500) - EARTH_R
    angle := 0.0
    status := "Idle"
    burn_rate_x := none
    burn_rate_y := none
    burn_remaining := none }

/-- Burn integration step of the simulator loop
(`if tm.get("burn_remaining", 0) > 0: ...`).  When the countdown is active
the velocities are incremented by the burn rates, the countdown is
decremented, the status is rewritten to the Burning string of the new
countdown, and if the new countdown is `<= 0` the three burn fields are
popped and the status overwritten to `"Stable"`.  (Python reads
`tm["burn_rate_x"]` directly, which presupposes the field is present
whenever `burn_remaining > 0`; the embedding uses `getD 0`, and the
presence invariant is proved separately for all reachable states.) -/
def burnPhase (s : State) : State :=
  if 0 < s.burn_remaining.getD 0 then
    let n := s.burn_remaining.getD 0 - 1
    if n ≤ 0 then
      { s with
        vx := s.vx + s.burn_rate_x.getD 0
        vy := s.vy + s.burn_rate_y.getD 0
        burn_rate_x := none
        burn_rate_y := none
        burn_remaining := none
        status := "Stable" }
    else
      { s with
        vx := s.vx + s.burn_rate_x.getD 0
        vy := s.vy + s.burn_rate_y.getD 0
        burn_remaining := some n
        status := burningStatus n }
  else s

/-- Python's float modulo with a positive divisor: `x % 360` returns the
representative of `x` in `[0, 360)`. -/
noncomputable def wrap360 (x : ℝ) : ℝ := x - 360 * ⌊x / 360⌋

/-- Orbital dynamics and angular motion of the simulator loop:
`speed = hypot(vx, vy)`; if `speed > 0` then `radius = GM / speed**2` and
`altitude = radius - EARTH_R`; then (unconditionally)
`dtheta = (speed / radius) * (180 / pi)` using the stored (freshly updated)
radius, and `angle = (angle + dtheta) % 360`. -/
noncomputable def physicsPhase (s : State) : State :=
  let speed := hypot s.vx s.vy
  let s2 :=
    if 0 < speed then
      { s with radius := GM / speed ^ 2, altitude := GM / speed ^ 2 - EARTH_R }
    else s
  { s2 with angle := wrap360 (s2.angle + (speed / s2.radius) * (180 / Real.pi)) }

/-- One full iteration of the simulator's `while True` body acting on the
telemetry record: burn integration followed by orbital dynamics and angular
motion. -/
noncomputable def tick (s : State) : State := physicsPhase (burnPhase s)

/-- The simulator tick with Python's `ZeroDivisionError` made explicit: the
expression `(speed / tm["radius"]) * (180 / math.pi)` raises when the stored
radius is zero at the point of the division (the division `GM / speed ** 2`
is guarded by `speed > 0` and cannot raise).  `none` models the exception
escaping the loop body. -/
noncomputable def tickRun (s : State) : Option State :=
  let s1 := burnPhase s
  let speed := hypot s1.vx s1.vy
  let s2 :=
    if 0 < speed then
      { s1 with radius := GM / speed ^ 2, altitude := GM / speed ^ 2 - EARTH_R }
    else s1
  if s2.radius = 0 then none
  else some { s2 with angle := wrap360 (s2.angle + (speed / s2.radius) * (180 / Real.pi)) }

/-- A JSON value standing where a number is expected: either it converts
(`float(v)` / `int(v)` succeeds) or the conversion raises
`TypeError`/`ValueError`. -/
inductive NumField where
  | val (x : ℝ)
  | bad


/-- As `NumField`, for the integer `duration` field (`int(v)`). -/
inductive IntField where
  | val (n : ℤ)
  | bad


/-- The JSON body of a POST to `/send-command`: each of the three fields may
be absent (`data.get` then defaults it) or present. -/
structure Request where
  dvx : Option NumField
  dvy : Option NumField
  duration : Option IntField


/-- `float(data.get("dvx", 0))`: a missing field defaults to `0` (so the
conversion yields `0.0`); a present non-numeric field raises, which the
handler turns into the invalid-input rejection. -/
def parseNum : Option NumField → Except Unit ℝ
  | none => .ok 0
  | some (.val x) => .ok x
  | some .bad => .error ()

/-- `int(data.get("duration", 0))`: a missing field defaults to `0`; a
present non-integer field raises. -/
def parseDur : Option IntField → Except Unit ℤ
  | none => .ok 0
  | some (.val n) => .ok n
  | some .bad => .error ()

/-- The possible HTTP responses of the `/send-command` handler.
`invalidInputResp` and `invalidDurationResp` are the 400 rejections,
`storeUnavailableResp` the 500 on an unreadable telemetry file,
`internalErr` an exception that escapes the handler (surfaced to the caller
as a fatal 500), and `scheduled tm` the success acknowledgment echoing the
updated telemetry. -/
inductive Response where
  | scheduled (tm : State)
  | invalidInputResp
  | invalidDurationResp
  | storeUnavailableResp
  | internalErr


/-- The success-path mutation of the handler: `burn_rate_x = dvx/duration`,
`burn_rate_y = dvy/duration`, `burn_remaining = duration`,
`status = "Burning: \x7bduration\x7bs remaining"` — a plain overwrite of the
four fields on the loaded record. -/
noncomputable def scheduleBurn (dvx dvy : ℝ) (duration : ℤ) (tm : State) : State :=
  { tm with
    burn_rate_x := some (dvx / (duration : ℝ))
    burn_rate_y := some (dvy / (duration : ℝ))
    burn_remaining := some duration
    status := burningStatus duration }

/-- The `/send-command` handler.  `store` is the current content of
`telemetry_data.json`; `storeReadable` models whether the read of that file
succeeds (its failure is the caught 500 path); `logOk` models whether the
append to `command_log.txt` succeeds — the source does not guard that append,
so its failure escapes as an unhandled exception AFTER the telemetry file has
already been rewritten.  The result is the stored state after the request
together with the response. -/
noncomputable def send_command (req : Request) (store : State)
    (storeReadable logOk : Bool) : State × Response :=
  match parseNum req.dvx, parseNum req.dvy, parseDur req.duration with
  | .ok dvx, .ok dvy, .ok duration =>
    if duration < 1 ∨ MAX_DUR < duration then (store, .invalidDurationResp)
    else if storeReadable = false then (store, .storeUnavailableResp)
    else
      let tm := scheduleBurn dvx dvy duration store
      if logOk then (tm, .scheduled tm) else (tm, .internalErr)
  | _, _, _ => (store, .invalidInputResp)

/-- One entry of the Open MCT angle feed `angle_feed.json`. -/
structure FeedEntry where
  timestamp : ℤ
  angle : ℝ


/-- Python `round` on a real number: round half to even. -/
noncomputable def roundHalfEven (x : ℝ) : ℤ :=
  if Int.fract x < 1 / 2 then ⌊x⌋
  else if 1 / 2 < Int.fract x then ⌈x⌉
  else if Even ⌊x⌋ then ⌊x⌋ else ⌊x⌋ + 1

/-- `round(a, 4)`: the angle rounded to 4 decimal places. -/
noncomputable def round4 (x : ℝ) : ℝ := (roundHalfEven (x * 10000) : ℝ) / 10000

/-- Python's slice `l[-1000:]`: the last 1000 entries of `l` (all of `l`
when it is shorter). -/
def lastN (l : List FeedEntry) : List FeedEntry := l.drop (l.length - 1000)

/-- `angle_log.append(e)` followed by `angle_log = angle_log[-1000:]`:
append, then keep only the last 1000 entries. -/
def appendCapped (log : List FeedEntry) (e : FeedEntry) : List FeedEntry :=
  lastN (log ++ [e])

/-- The feed side of one loop iteration: the tick updates the telemetry, and
the sample `\x7btimestamp: now, angle: round(tm["angle"], 4)\x7d` is appended
to the capped feed. -/
noncomputable def tickFeed (s : State) (feed : List FeedEntry) (now : ℤ) :
    State × List FeedEntry :=
  (tick s, appendCapped feed ⟨now, round4 (tick s).angle⟩)

/-- The states reachable from the initial telemetry document by any
interleaving of `/send-command` requests (under any store-read and log-write
outcomes) and simulator ticks. -/
inductive Reach : State → Prop where
  | base : Reach initState
  | tickStep {s : State} : Reach s → Reach (tick s)
  | cmdStep {s : State} (req : Request) (sr lg : Bool) :
      Reach s → Reach (send_command req s sr lg).1

/-- The spec's burn-field presence invariant: `burn_remaining` present iff
`burn_rate_x` present iff `burn_rate_y` present iff the status is the
Burning string of some countdown. -/
def WF (s : State) : Prop :=
  (s.burn_remaining.isSome ↔ s.burn_rate_x.isSome) ∧
  (s.burn_remaining.isSome ↔ s.burn_rate_y.isSome) ∧
  (s.burn_remaining.isSome ↔ ∃ n : ℤ, s.status = burningStatus n)

/-- A concrete state entering propagation mid-burn with 2 seconds left and
zero burn rates. -/
def s0 : State :=
  { vx := 7.5, vy := 0, radius := 6871, altitude := 500, angle := 0,
    status := burningStatus 2, burn_rate_x := some 0, burn_rate_y := some 0,
    burn_remaining := some 2 }

/-- A concrete fully populated burn request: dvx = 1.0, dvy = 0, duration 10. -/
def reqFull : Request :=
  { dvx := some (.val 1), dvy := some (.val 0), duration := some (.val 10) }

/-- A concrete burn request omitting dvx. -/
def reqNoDvx : Request :=
  { dvx := none, dvy := some (.val 2), duration := some (.val 10) }

/-- A concrete burn request omitting dvy. -/
def reqNoDvy : Request :=
  { dvx := some (.val 3), dvy := none, duration := some (.val 10) }

/-- A concrete burn request omitting duration. -/
def reqNoDur : Request :=
  { dvx := some (.val 1), dvy := some (.val 0), duration := none }

/-- A concrete burn request with an out-of-range duration. -/
def reqLongBurn : Request :=
  { dvx := some (.val 1), dvy := some (.val 0), duration := some (.val 61) }

/-! Helper lemmas about the two phases of a tick. -/

lemma physicsPhase_status (s : State) : (physicsPhase s).status = s.status := by
  unfold physicsPhase
  by_cases h : 0 < hypot s.vx s.vy <;> simp [h]

lemma physicsPhase_vx (s : State) : (physicsPhase s).vx = s.vx := by
  unfold physicsPhase
  by_cases h : 0 < hypot s.vx s.vy <;> simp [h]

lemma physicsPhase_vy (s : State) : (physicsPhase s).vy = s.vy := by
  unfold physicsPhase
  by_cases h : 0 < hypot s.vx s.vy <;> simp [h]

lemma physicsPhase_burn_remaining (s : State) :
    (physicsPhase s).burn_remaining = s.burn_remaining := by
  unfold physicsPhase
  by_cases h : 0 < hypot s.vx s.vy <;> simp [h]

lemma physicsPhase_burn_rate_x (s : State) :
    (physicsPhase s).burn_rate_x = s.burn_rate_x := by
  unfold physicsPhase
  by_cases h : 0 < hypot s.vx s.vy <;> simp [h]

lemma physicsPhase_burn_rate_y (s : State) :
    (physicsPhase s).burn_rate_y = s.burn_rate_y := by
  unfold physicsPhase
  by_cases h : 0 < hypot s.vx s.vy <;> simp [h]

lemma burnPhase_radius (s : State) : (burnPhase s).radius = s.radius := by
  unfold burnPhase
  by_cases h : 0 < s.burn_remaining.getD 0 <;>
    by_cases h2 : s.burn_remaining.getD 0 - 1 ≤ 0 <;> simp [h, h2]

lemma burnPhase_altitude (s : State) : (burnPhase s).altitude = s.altitude := by
  unfold burnPhase
  by_cases h : 0 < s.burn_remaining.getD 0 <;>
    by_cases h2 : s.burn_remaining.getD 0 - 1 ≤ 0 <;> simp [h, h2]

lemma burnPhase_angle (s : State) : (burnPhase s).angle = s.angle := by
  unfold burnPhase
  by_cases h : 0 < s.burn_remaining.getD 0 <;>
    by_cases h2 : s.burn_remaining.getD 0 - 1 ≤ 0 <;> simp [h, h2]

/-- Burn integration with more than one second left: decrement and rewrite
the status. -/
lemma burnPhase_of_gt_one (s : State) (n : ℤ) (hr : s.burn_remaining = some n)
    (h1 : 1 < n) :
    burnPhase s =
      { s with
        vx := s.vx + s.burn_rate_x.getD 0
        vy := s.vy + s.burn_rate_y.getD 0
        burn_remaining := some (n - 1)
        status := burningStatus (n - 1) } := by
  unfold burnPhase
  rw [hr]
  simp only [Option.getD_some]
  rw [if_pos (by omega), if_neg (by omega)]

/-- Burn integration on the last second: pop the three burn fields and set
the status to Stable. -/
lemma burnPhase_of_one (s : State) (hr : s.burn_remaining = some 1) :
    burnPhase s =
      { s with
        vx := s.vx + s.burn_rate_x.getD 0
        vy := s.vy + s.burn_rate_y.getD 0
        burn_rate_x := none
        burn_rate_y := none
        burn_remaining := none
        status := "Stable" } := by
  unfold burnPhase
  rw [hr]
  norm_num

/-- Burn integration does nothing when the countdown is not positive. -/
lemma burnPhase_of_nonpos (s : State) (h : s.burn_remaining.getD 0 ≤ 0) :
    burnPhase s = s := by
  unfold burnPhase
  rw [if_neg (by omega)]

/-! Helper lemmas about the wrapped angle. -/

lemma wrap360_eq_fract (x : ℝ) : wrap360 x = 360 * Int.fract (x / 360) := by
  unfold wrap360
  rw [Int.fract]
  ring

lemma wrap360_nonneg (x : ℝ) : 0 ≤ wrap360 x := by
  rw [wrap360_eq_fract]
  have := Int.fract_nonneg (x / 360)
  nlinarith

lemma wrap360_lt (x : ℝ) : wrap360 x < 360 := by
  rw [wrap360_eq_fract]
  have := Int.fract_lt_one (x / 360)
  nlinarith

/-- The tick when the post-burn speed is positive: radius and altitude are
recomputed and the division in the angular step uses the fresh radius. -/
lemma tick_eq_of_pos (s : State) (h : 0 < hypot (burnPhase s).vx (burnPhase s).vy) :
    tick s =
      { burnPhase s with
        radius := GM / hypot (burnPhase s).vx (burnPhase s).vy ^ 2
        altitude := GM / hypot (burnPhase s).vx (burnPhase s).vy ^ 2 - EARTH_R
        angle := wrap360 ((burnPhase s).angle +
          (hypot (burnPhase s).vx (burnPhase s).vy /
            (GM / hypot (burnPhase s).vx (burnPhase s).vy ^ 2)) * (180 / Real.pi)) } := by
  unfold tick physicsPhase
  simp [h]

/-- The tick when the post-burn speed is not positive: radius and altitude
are untouched and the angular step divides by the stored radius. -/
lemma tick_eq_of_nonpos (s : State) (h : ¬ 0 < hypot (burnPhase s).vx (burnPhase s).vy) :
    tick s =
      { burnPhase s with
        angle := wrap360 ((burnPhase s).angle +
          (hypot (burnPhase s).vx (burnPhase s).vy / (burnPhase s).radius) *
            (180 / Real.pi)) } := by
  unfold tick physicsPhase
  simp [h]

/-- Every tick ends with the stored angle in wrapped form. -/
lemma tick_angle_eq_wrap (s : State) : ∃ y : ℝ, (tick s).angle = wrap360 y := by
  by_cases h : 0 < hypot (burnPhase s).vx (burnPhase s).vy
  · exact ⟨_, by rw [tick_eq_of_pos s h]⟩
  · exact ⟨_, by rw [tick_eq_of_nonpos s h]⟩

/-! Helper lemmas about the status strings. -/

lemma burningStatus_head (n : ℤ) : (burningStatus n).data.head? = some 'B' := by
  unfold burningStatus
  rw [String.append_assoc, String.data_append]
  rfl

lemma burningStatus_ne_stable (n : ℤ) : burningStatus n ≠ "Stable" := by
  intro h
  have := burningStatus_head n
  rw [h] at this
  simp at this

lemma burningStatus_ne_idle (n : ℤ) : burningStatus n ≠ "Idle" := by
  intro h
  have := burningStatus_head n
  rw [h] at this
  simp at this

lemma tick_burn_remaining (s : State) :
    (tick s).burn_remaining = (burnPhase s).burn_remaining :=
  physicsPhase_burn_remaining _

lemma tick_burn_rate_x (s : State) :
    (tick s).burn_rate_x = (burnPhase s).burn_rate_x :=
  physicsPhase_burn_rate_x _

lemma tick_burn_rate_y (s : State) :
    (tick s).burn_rate_y = (burnPhase s).burn_rate_y :=
  physicsPhase_burn_rate_y _

lemma tick_status (s : State) : (tick s).status = (burnPhase s).status :=
  physicsPhase_status _

/-- While more than one second of burn is left, each tick decrements the
countdown, keeps the burn rates, and rewrites the status to the Burning
string of the new countdown. -/
lemma burn_countdown_steps (s : State) (N : ℕ)
    (hr : s.burn_remaining = some (N : ℤ)) :
    ∀ i : ℕ, i < N →
      (tick^[i] s).burn_remaining = some ((N : ℤ) - i) ∧
      (tick^[i] s).burn_rate_x = s.burn_rate_x ∧
      (tick^[i] s).burn_rate_y = s.burn_rate_y ∧
      (1 ≤ i → (tick^[i] s).status = burningStatus ((N : ℤ) - i)) := by
  intro i
  induction i with
  | zero =>
    intro _
    refine ⟨by simpa using hr, rfl, rfl, fun h => absurd h (by norm_num)⟩
  | succ j ih =>
    intro hij
    have hj : j < N := Nat.lt_of_succ_lt hij
    obtain ⟨hrem, hrx, hry, -⟩ := ih hj
    have h1 : 1 < (N : ℤ) - j := by omega
    have hbp := burnPhase_of_gt_one (tick^[j] s) ((N : ℤ) - j) hrem h1
    rw [Function.iterate_succ_apply']
    refine ⟨?_, ?_, ?_, fun _ => ?_⟩
    · rw [tick_burn_remaining, hbp]
      show some ((N : ℤ) - j - 1) = some ((N : ℤ) - (j + 1 : ℕ))
      congr 1
      push_cast
      ring
    · rw [tick_burn_rate_x, hbp]
      exact hrx
    · rw [tick_burn_rate_y, hbp]
      exact hry
    · rw [tick_status, hbp]
      show burningStatus ((N : ℤ) - j - 1) = burningStatus ((N : ℤ) - (j + 1 : ℕ))
      congr 1
      push_cast
      ring

/-- C1 (amended): Burn countdown over a full burn — entering propagation
with `burn_remaining = N` (N ≥ 1) and burn rates present, after N ticks the
three burn fields are absent and the status is `"Stable"`; after each
intermediate tick i (1 ≤ i < N) the status is the Burning string showing
`N - i` seconds remaining, i.e. k = N-1 down to 1 (a Burning string with 0
seconds remaining is never stored: on the exhausting tick it is immediately
overwritten by `"Stable"`). -/
theorem burn_countdown (s : State) (N : ℕ) (hN : 1 ≤ N) (rx ry : ℝ)
    (_hrx : s.burn_rate_x = some rx) (_hry : s.burn_rate_y = some ry)
    (hr : s.burn_remaining = some (N : ℤ)) :
    (tick^[N] s).burn_remaining = none ∧
    (tick^[N] s).burn_rate_x = none ∧
    (tick^[N] s).burn_rate_y = none ∧
    (tick^[N] s).status = "Stable" ∧
    ∀ i : ℕ, 1 ≤ i → i < N →
      (tick^[i] s).status = burningStatus ((N : ℤ) - i) := by
  have hc := burn_countdown_steps s N hr
  obtain ⟨hrem, -, -, -⟩ := hc (N - 1) (by omega)
  have hrem1 : (tick^[N - 1] s).burn_remaining = some 1 := by
    rw [hrem]
    congr 1
    omega
  have hstep : tick^[N] s = tick (tick^[N - 1] s) := by
    conv_lhs => rw [show N = (N - 1) + 1 by omega]
    rw [Function.iterate_succ_apply']
  have hbp := burnPhase_of_one (tick^[N - 1] s) hrem1
  refine ⟨?_, ?_, ?_, ?_, fun i hi1 hi2 => (hc i hi2).2.2.2 hi1⟩
  · rw [hstep, tick_burn_remaining, hbp]
  · rw [hstep, tick_burn_rate_x, hbp]
  · rw [hstep, tick_burn_rate_y, hbp]
  · rw [hstep, tick_status, hbp]

/-- Closed instance of `burn_countdown` at `s0` (N = 2): after two ticks
the countdown is gone and the status is Stable; after the single
intermediate tick the status shows 1 second remaining. -/
theorem burn_countdown_witness :
    (tick^[2] s0).burn_remaining = none ∧
    (tick^[2] s0).status = "Stable" ∧
    (tick^[1] s0).status = burningStatus 1 := by
  have h := burn_countdown s0 2 (by norm_num) 0 0 rfl rfl rfl
  refine ⟨h.1, h.2.2.2.1, ?_⟩
  have h2 := h.2.2.2.2 1 (by norm_num) (by norm_num)
  simpa using h2

/-- Refutation of C1 as literally stated: the claim asserts the Burning
status is observed for k = N-1 down to 0, but a Burning string with 0
seconds remaining is never stored — at `s0` (N = 2) no tick at all (not
even the final one) yields `burningStatus 0`: the statuses along the run
are Burning 2, Burning 1, Stable. -/
theorem burn_countdown_zero_never_observed :
    ¬ ∃ i : ℕ, i ≤ 2 ∧ (tick^[i] s0).status = burningStatus 0 := by
  have hbp1 := burnPhase_of_gt_one s0 2 rfl (by norm_num)
  have hst1 : (tick s0).status = burningStatus 1 := by
    rw [tick_status, hbp1]
    norm_num
  have hrem1 : (tick s0).burn_remaining = some 1 := by
    rw [tick_burn_remaining, hbp1]
    norm_num
  have hst2 : (tick (tick s0)).status = "Stable" := by
    rw [tick_status, burnPhase_of_one (tick s0) hrem1]
  rintro ⟨i, hi, hstat⟩
  interval_cases i
  · rw [Function.iterate_zero_apply] at hstat
    exact absurd hstat (by decide)
  · rw [Function.iterate_one] at hstat
    rw [hst1] at hstat
    exact absurd hstat (by decide)
  · rw [show (2:ℕ) = 1 + 1 from rfl, Function.iterate_succ_apply',
      Function.iterate_one] at hstat
    rw [hst2] at hstat
    exact absurd hstat (burningStatus_ne_stable 0).symm

/-- The success path of the handler in one equation: parseable fields and an
in-range duration give the scheduled state, whatever the log write does. -/
lemma send_command_ok (req : Request) (dvx dvy : ℝ) (d : ℤ)
    (hdx : parseNum req.dvx = .ok dvx) (hdy : parseNum req.dvy = .ok dvy)
    (hd : parseDur req.duration = .ok d)
    (h1 : 1 ≤ d) (h60 : d ≤ 60) (store : State) (lg : Bool) :
    send_command req store true lg =
      (scheduleBurn dvx dvy d store,
       if lg then Response.scheduled (scheduleBurn dvx dvy d store)
       else Response.internalErr) := by
  unfold send_command
  rw [hdx, hdy, hd]
  have hcond : ¬ (d < 1 ∨ MAX_DUR < d) := by
    unfold MAX_DUR
    omega
  cases lg <;> simp [hcond]

/-- C2: Burn-scheduler success postcondition — for every request with
numeric dvx, dvy and integer duration in [1, 60] (and a readable store),
the handler stores `scheduleBurn dvx dvy duration` applied to the previous
state: `burn_rate_x = dvx/duration`, `burn_rate_y = dvy/duration`,
`burn_remaining = duration`, and the Burning status string of the duration,
overwriting any in-progress burn (the new burn fields depend only on the
request, not on the previous burn fields). -/
theorem burn_scheduler_success (req : Request) (dvx dvy : ℝ) (d : ℤ)
    (hdx : parseNum req.dvx = .ok dvx) (hdy : parseNum req.dvy = .ok dvy)
    (hd : parseDur req.duration = .ok d)
    (h1 : 1 ≤ d) (h60 : d ≤ 60) (store : State) (lg : Bool) :
    (send_command req store true lg).1 = scheduleBurn dvx dvy d store ∧
    (send_command req store true lg).1.burn_rate_x = some (dvx / (d : ℝ)) ∧
    (send_command req store true lg).1.burn_rate_y = some (dvy / (d : ℝ)) ∧
    (send_command req store true lg).1.burn_remaining = some d ∧
    (send_command req store true lg).1.status = burningStatus d := by
  rw [send_command_ok req dvx dvy d hdx hdy hd h1 h60 store lg]
  exact ⟨rfl, rfl, rfl, rfl, rfl⟩

/-- Closed instance of `burn_scheduler_success`: scheduling
dvx = 1, dvy = 0, duration = 10 on the initial state stores
`burn_rate_x = 0.1`, `burn_remaining = 10` and the corresponding Burning
status string. -/
theorem burn_scheduler_success_witness :
    (send_command reqFull initState true true).1.burn_rate_x = some (1 / 10 : ℝ) ∧
    (send_command reqFull initState true true).1.burn_remaining = some 10 ∧
    (send_command reqFull initState true true).1.status = "Burning: 10s remaining" := by
  have h := burn_scheduler_success reqFull 1 0 10 rfl rfl rfl
    (by norm_num) (by norm_num) initState true
  refine ⟨?_, h.2.2.2.1, ?_⟩
  · rw [h.2.1]
    norm_num
  · rw [h.2.2.2.2]
    rfl

/-- C5: InvalidDuration rejection with atomicity — a request whose parsed
duration falls outside [1, 60] is rejected with the InvalidDuration 400
response and the stored telemetry is returned unchanged, for every store
content and every store-read/log-write environment. -/
theorem invalid_duration_rejected (req : Request) (dvx dvy : ℝ) (d : ℤ)
    (hdx : parseNum req.dvx = .ok dvx) (hdy : parseNum req.dvy = .ok dvy)
    (hd : parseDur req.duration = .ok d) (hbad : d < 1 ∨ 60 < d)
    (store : State) (sr lg : Bool) :
    send_command req store sr lg = (store, Response.invalidDurationResp) := by
  unfold send_command
  rw [hdx, hdy, hd]
  have hcond : d < 1 ∨ MAX_DUR < d := by
    unfold MAX_DUR
    omega
  simp [hcond]

/-- Closed instance of `invalid_duration_rejected`: duration 61 is rejected
and the initial state is left untouched. -/
theorem invalid_duration_rejected_witness :
    send_command reqLongBurn initState true true =
      (initState, Response.invalidDurationResp) :=
  invalid_duration_rejected reqLongBurn 1 0 61 rfl rfl rfl
    (by norm_num) initState true true

/-- C10: Implicit defaulting of missing command fields — a request omitting
dvx (resp. dvy) is not rejected as InvalidInput: the missing component
defaults to 0 and a zero-rate burn on that axis is scheduled; a request
omitting duration defaults it to 0 and is rejected with InvalidDuration
(not InvalidInput), even when the store is unreadable — i.e. before the
store is read or written. -/
theorem missing_fields_defaulted :
    (∀ (req : Request) (dvy : ℝ) (d : ℤ), req.dvx = none →
      parseNum req.dvy = .ok dvy → parseDur req.duration = .ok d →
      1 ≤ d → d ≤ 60 → ∀ (store : State) (lg : Bool),
        (send_command req store true lg).1 = scheduleBurn 0 dvy d store ∧
        (send_command req store true lg).1.burn_rate_x = some 0) ∧
    (∀ (req : Request) (dvx : ℝ) (d : ℤ), req.dvy = none →
      parseNum req.dvx = .ok dvx → parseDur req.duration = .ok d →
      1 ≤ d → d ≤ 60 → ∀ (store : State) (lg : Bool),
        (send_command req store true lg).1 = scheduleBurn dvx 0 d store ∧
        (send_command req store true lg).1.burn_rate_y = some 0) ∧
    (∀ (req : Request) (dvx dvy : ℝ), parseNum req.dvx = .ok dvx →
      parseNum req.dvy = .ok dvy → req.duration = none →
      ∀ (store : State) (sr lg : Bool),
        send_command req store sr lg = (store, Response.invalidDurationResp)) := by
  refine ⟨?_, ?_, ?_⟩
  · intro req dvy d hdx hdy hd h1 h60 store lg
    have hdx0 : parseNum req.dvx = .ok 0 := by
      rw [hdx]
      rfl
    have h := burn_scheduler_success req 0 dvy d hdx0 hdy hd h1 h60 store lg
    refine ⟨h.1, ?_⟩
    rw [h.2.1]
    norm_num
  · intro req dvx d hdy hdx hd h1 h60 store lg
    have hdy0 : parseNum req.dvy = .ok 0 := by
      rw [hdy]
      rfl
    have h := burn_scheduler_success req dvx 0 d hdx hdy0 hd h1 h60 store lg
    refine ⟨h.1, ?_⟩
    rw [h.2.2.1]
    norm_num
  · intro req dvx dvy hdx hdy hd store sr lg
    have hd0 : parseDur req.duration = .ok 0 := by
      rw [hd]
      rfl
    exact invalid_duration_rejected req dvx dvy 0 hdx hdy hd0
      (by norm_num) store sr lg

/-- Closed instance of `missing_fields_defaulted`: omitting dvx schedules a
zero-rate burn on x, omitting dvy schedules a zero-rate burn on y, and
omitting duration is rejected as InvalidDuration even with an unreadable
store. -/
theorem missing_fields_defaulted_witness :
    (send_command reqNoDvx initState true true).1.burn_rate_x = some 0 ∧
    (send_command reqNoDvy initState true true).1.burn_rate_y = some 0 ∧
    send_command reqNoDur initState false true =
      (initState, Response.invalidDurationResp) := by
  refine ⟨?_, ?_, ?_⟩
  · exact ((missing_fields_defaulted.1 reqNoDvx 2 10 rfl rfl rfl
      (by norm_num) (by norm_num) initState true)).2
  · exact ((missing_fields_defaulted.2.1 reqNoDvy 3 10 rfl rfl rfl
      (by norm_num) (by norm_num) initState true)).2
  · exact missing_fields_defaulted.2.2 reqNoDur 1 0 rfl rfl rfl
      initState false true

/-- Refutation of C7 as literally stated: for the concrete valid burn
request dvx = 1, dvy = 0, duration = 10, when the append to the audit log
fails the handler does not complete without a fatal error — the unhandled
exception (the append is not guarded by any try/except) surfaces to the
caller as an internal error instead of the success acknowledgment. -/
theorem audit_log_failure_fatal :
    (send_command reqFull initState true false).2 = Response.internalErr := by
  rw [send_command_ok reqFull 1 0 10 rfl rfl rfl
    (by norm_num) (by norm_num) initState false]
  rfl

/-- C7 (amended): Audit-log write failure does not block or undo the
telemetry state update — the state stored after a validated command whose
log append fails is exactly the scheduled burn state, identical to the one
stored when the log append succeeds; however the failure does surface to
the caller as a fatal error rather than a success acknowledgment. -/
theorem audit_log_failure_state_update (req : Request) (dvx dvy : ℝ) (d : ℤ)
    (hdx : parseNum req.dvx = .ok dvx) (hdy : parseNum req.dvy = .ok dvy)
    (hd : parseDur req.duration = .ok d)
    (h1 : 1 ≤ d) (h60 : d ≤ 60) (store : State) :
    (send_command req store true false).1 = scheduleBurn dvx dvy d store ∧
    (send_command req store true false).1 =
      (send_command req store true true).1 ∧
    (send_command req store true false).2 = Response.internalErr := by
  rw [send_command_ok req dvx dvy d hdx hdy hd h1 h60 store false,
    send_command_ok req dvx dvy d hdx hdy hd h1 h60 store true]
  exact ⟨rfl, rfl, rfl⟩

/-- Closed instance of `audit_log_failure_state_update` at the concrete
request dvx = 1, dvy = 0, duration = 10. -/
theorem audit_log_failure_state_update_witness :
    (send_command reqFull initState true false).1 =
      scheduleBurn 1 0 10 initState ∧
    (send_command reqFull initState true false).1 =
      (send_command reqFull initState true true).1 :=
  ⟨(audit_log_failure_state_update reqFull 1 0 10 rfl rfl rfl
      (by norm_num) (by norm_num) initState).1,
   (audit_log_failure_state_update reqFull 1 0 10 rfl rfl rfl
      (by norm_num) (by norm_num) initState).2.1⟩

/-- C4: Angle range invariant — starting from the initial state
(angle = 0), after any number of propagation ticks the stored angle
satisfies `0 ≤ angle < 360`. -/
theorem angle_range_invariant (n : ℕ) :
    0 ≤ (tick^[n] initState).angle ∧ (tick^[n] initState).angle < 360 := by
  cases n with
  | zero =>
    norm_num [initState]
  | succ m =>
    rw [Function.iterate_succ_apply']
    obtain ⟨y, hy⟩ := tick_angle_eq_wrap (tick^[m] initState)
    rw [hy]
    exact ⟨wrap360_nonneg y, wrap360_lt y⟩

/-- C3: Physics update per tick — with `sp = hypot vx vy` computed after
burn integration, if `sp > 0` the tick sets `radius = GM / sp^2` and
`altitude = radius - 6371`, then advances the angle by
`(sp / radius) * (180 / pi)` degrees modulo 360 using the newly computed
radius; if `sp = 0`, radius and altitude keep their prior values and the
angular step divides by the prior radius. -/
theorem physics_update_per_tick (s : State) (sp : ℝ)
    (hsp : sp = hypot (burnPhase s).vx (burnPhase s).vy) :
    (0 < sp →
      (tick s).radius = GM / sp ^ 2 ∧
      (tick s).altitude = (tick s).radius - EARTH_R ∧
      (tick s).angle =
        wrap360 (s.angle + (sp / (GM / sp ^ 2)) * (180 / Real.pi))) ∧
    (sp = 0 →
      (tick s).radius = s.radius ∧
      (tick s).altitude = s.altitude ∧
      (tick s).angle =
        wrap360 (s.angle + (sp / s.radius) * (180 / Real.pi))) := by
  subst hsp
  constructor
  · intro h
    rw [tick_eq_of_pos s h]
    refine ⟨rfl, ?_, ?_⟩
    · show GM / _ ^ 2 - EARTH_R = GM / _ ^ 2 - EARTH_R
      rfl
    · show wrap360 _ = wrap360 _
      rw [burnPhase_angle]
  · intro h
    have hn : ¬ 0 < hypot (burnPhase s).vx (burnPhase s).vy := by
      rw [h]
      exact lt_irrefl 0
    rw [tick_eq_of_nonpos s hn]
    refine ⟨burnPhase_radius s, burnPhase_altitude s, ?_⟩
    show wrap360 _ = wrap360 _
    rw [burnPhase_angle, burnPhase_radius]

/-- Closed instance of `physics_update_per_tick` at the initial state:
the post-burn speed is 7.5 > 0 and the tick recomputes radius and
altitude from it. -/
theorem physics_update_per_tick_witness :
    (0:ℝ) < 7.5 ∧
    (tick initState).radius = GM / 7.5 ^ 2 ∧
    (tick initState).altitude = (tick initState).radius - EARTH_R := by
  have hb : burnPhase initState = initState :=
    burnPhase_of_nonpos initState (by norm_num [initState])
  have hsp : (7.5:ℝ) = hypot (burnPhase initState).vx (burnPhase initState).vy := by
    rw [hb]
    show (7.5:ℝ) = hypot 7.5 0.0
    unfold hypot
    rw [show ((7.5:ℝ) ^ 2 + 0.0 ^ 2) = 7.5 ^ 2 by norm_num,
      Real.sqrt_sq (by norm_num : (0:ℝ) ≤ 7.5)]
  have h := (physics_update_per_tick initState 7.5 hsp).1 (by norm_num)
  exact ⟨by norm_num, h.1, h.2.1⟩

/-- C9: Division-by-zero totality — the tick raises no `ZeroDivisionError`
iff the incoming state has a nonzero radius whenever the post-burn speed is
zero; when the speed is positive the freshly computed radius `GM / sp^2` is
strictly positive and the run always succeeds, producing `tick s`. -/
theorem tickRun_total_iff (s : State) :
    ((tickRun s).isSome ↔
      (hypot (burnPhase s).vx (burnPhase s).vy = 0 → s.radius ≠ 0)) ∧
    (0 < hypot (burnPhase s).vx (burnPhase s).vy →
      tickRun s = some (tick s) ∧ 0 < (tick s).radius) := by
  by_cases hpos : 0 < hypot (burnPhase s).vx (burnPhase s).vy
  · have hGM : (0:ℝ) < GM := by norm_num [GM]
    have hr : (0:ℝ) < GM / hypot (burnPhase s).vx (burnPhase s).vy ^ 2 :=
      div_pos hGM (by positivity)
    refine ⟨⟨fun _ h0 => absurd h0 (ne_of_gt hpos), fun _ => ?_⟩, fun _ => ⟨?_, ?_⟩⟩
    · unfold tickRun
      simp [hpos, ne_of_gt hr]
    · unfold tickRun tick physicsPhase
      simp [hpos, ne_of_gt hr]
    · rw [tick_eq_of_pos s hpos]
      exact hr
  · have h0 : hypot (burnPhase s).vx (burnPhase s).vy = 0 :=
      le_antisymm (not_lt.mp hpos) (Real.sqrt_nonneg _)
    refine ⟨?_, fun hc => absurd hc hpos⟩
    unfold tickRun
    by_cases hrad : s.radius = 0
    · simp [hpos, burnPhase_radius, hrad, h0]
    · simp [hpos, burnPhase_radius, hrad, h0]

/-- The scheduler mutation satisfies the presence invariant. -/
lemma WF_scheduleBurn (dvx dvy : ℝ) (d : ℤ) (tm : State) :
    WF (scheduleBurn dvx dvy d tm) := by
  unfold WF scheduleBurn
  refine ⟨by simp, by simp, by simp⟩

/-- The stored state after any `/send-command` request is either the
previous state (a rejection) or the scheduled burn state. -/
lemma send_command_fst_cases (req : Request) (store : State) (sr lg : Bool) :
    (send_command req store sr lg).1 = store ∨
    ∃ dvx dvy d, (send_command req store sr lg).1 = scheduleBurn dvx dvy d store := by
  unfold send_command
  cases hdx : parseNum req.dvx with
  | error e => simp
  | ok dvx =>
    cases hdy : parseNum req.dvy with
    | error e => simp
    | ok dvy =>
      cases hd : parseDur req.duration with
      | error e => simp
      | ok d =>
        by_cases hdur : d < 1 ∨ MAX_DUR < d
        · simp [hdur]
        · cases sr with
          | false => simp [hdur]
          | true =>
            cases lg with
            | false =>
              refine Or.inr ⟨dvx, dvy, d, ?_⟩
              simp [hdur]
            | true =>
              refine Or.inr ⟨dvx, dvy, d, ?_⟩
              simp [hdur]

/-- One tick preserves the presence invariant. -/
lemma WF_tick (s : State) (h : WF s) : WF (tick s) := by
  obtain ⟨hx, hy, hst⟩ := h
  have hgoal : WF (burnPhase s) → WF (tick s) := by
    intro hwf
    unfold WF
    rw [tick_burn_remaining, tick_burn_rate_x, tick_burn_rate_y, tick_status]
    exact hwf
  apply hgoal
  cases hrem : s.burn_remaining with
  | none =>
    rw [burnPhase_of_nonpos s (by rw [hrem]; exact le_refl 0)]
    exact ⟨hx, hy, hst⟩
  | some n =>
    by_cases hn0 : n ≤ 0
    · rw [burnPhase_of_nonpos s (by rw [hrem]; simpa)]
      exact ⟨hx, hy, hst⟩
    · rcases lt_or_eq_of_le (by omega : 1 ≤ n) with h1 | h1
      · rw [burnPhase_of_gt_one s n hrem h1]
        rw [hrem] at hx hy
        refine ⟨by simpa using hx, by simpa using hy, by simp⟩
      · rw [burnPhase_of_one s (by rw [hrem, ← h1])]
        refine ⟨by simp, by simp, ?_⟩
        constructor
        · intro hfalse
          simp at hfalse
        · rintro ⟨k, hk⟩
          exact absurd hk.symm (burningStatus_ne_stable k)

/-- C6: Burn-field presence invariant — in every state reachable from the
initial state by any interleaving of `/send-command` requests and
propagation ticks, `burn_remaining` is present iff `burn_rate_x` is
present iff `burn_rate_y` is present iff the status is the Burning string
of some countdown. -/
theorem burn_fields_invariant (s : State) (h : Reach s) : WF s := by
  induction h with
  | base =>
    refine ⟨by simp [initState], by simp [initState], ?_⟩
    simp only [initState, Option.isSome_none]
    constructor
    · intro hfalse
      exact absurd hfalse (by simp)
    · rintro ⟨n, hn⟩
      exact absurd hn.symm (burningStatus_ne_idle n)
  | tickStep _ ih => exact WF_tick _ ih
  | cmdStep req sr lg _ ih =>
    rcases send_command_fst_cases req _ sr lg with hc | ⟨dvx, dvy, d, hc⟩
    · rw [hc]
      exact ih
    · rw [hc]
      exact WF_scheduleBurn dvx dvy d _

/-- Closed instance of `burn_fields_invariant`: the initial state is
reachable and satisfies the presence invariant. -/
theorem burn_fields_invariant_witness : WF initState :=
  burn_fields_invariant initState Reach.base

/-- The length of a capped append: one more than before, saturated at
1000. -/
lemma length_appendCapped (l : List FeedEntry) (e : FeedEntry) :
    (appendCapped l e).length = min (l.length + 1) 1000 := by
  unfold appendCapped lastN
  rw [List.length_drop, List.length_append]
  simp
  omega

/-- Appending to a full feed drops exactly the oldest entry. -/
lemma appendCapped_full (l : List FeedEntry) (e : FeedEntry)
    (h : l.length = 1000) : appendCapped l e = l.tail ++ [e] := by
  unfold appendCapped lastN
  rw [List.length_append]
  cases l with
  | nil => simp at h
  | cons x xs =>
    have : (x :: xs).length + [e].length - 1000 = 1 := by
      simp at h ⊢
      omega
    rw [this]
    rw [List.cons_append, List.drop_succ_cons, List.drop_zero]
    rfl

/-- Dropping a prefix does not change the last 1000 entries. -/
lemma lastN_append_of_le (u v : List FeedEntry) (h : 1000 ≤ v.length) :
    lastN (u ++ v) = lastN v := by
  unfold lastN
  rw [List.length_append]
  have harith : u.length + v.length - 1000 = u.length + (v.length - 1000) := by
    omega
  rw [harith, List.drop_append]

/-- `lastN` is the identity on short lists. -/
lemma lastN_of_le (l : List FeedEntry) (h : l.length ≤ 1000) : lastN l = l := by
  unfold lastN
  have : l.length - 1000 = 0 := by omega
  rw [this, List.drop_zero]

/-- Re-capping after a capped prefix changes nothing. -/
lemma lastN_lastN_append (a : List FeedEntry) (xs : List FeedEntry) :
    lastN (lastN a ++ xs) = lastN (a ++ xs) := by
  by_cases h : a.length ≤ 1000
  · rw [lastN_of_le a h]
  · have hlen : (lastN a).length = 1000 := by
      unfold lastN
      rw [List.length_drop]
      omega
    have h2 : a ++ xs = a.take (a.length - 1000) ++ (lastN a ++ xs) := by
      rw [← List.append_assoc]
      unfold lastN
      rw [List.take_append_drop]
    rw [h2, lastN_append_of_le (a.take (a.length - 1000)) (lastN a ++ xs)
      (by rw [List.length_append, hlen]; omega)]

/-- Folding capped appends over a stream computes the last 1000 entries of
everything seen so far. -/
lemma foldl_appendCapped (xs : List FeedEntry) :
    ∀ l : List FeedEntry, l.length ≤ 1000 →
      List.foldl appendCapped l xs = lastN (l ++ xs) := by
  induction xs with
  | nil =>
    intro l hl
    rw [List.foldl_nil, List.append_nil, lastN_of_le l hl]
  | cons x xs ih =>
    intro l hl
    rw [List.foldl_cons]
    rw [ih (appendCapped l x) (by rw [length_appendCapped]; omega)]
    show lastN (lastN (l ++ [x]) ++ xs) = lastN (l ++ x :: xs)
    rw [lastN_lastN_append]
    rw [List.append_assoc]
    rfl

/-- C8: Feed cap with FIFO eviction — each loop iteration appends the
sample with the current timestamp and the freshly wrapped angle rounded to
4 decimal places; the resulting feed never exceeds 1000 entries; appending
to a feed of exactly 1000 entries drops exactly the oldest entry; and a
stream of 1001 appended samples ends with the 1000-entry feed equal to the
stream minus its first sample. -/
theorem feed_cap (s : State) (feed : List FeedEntry) (now : ℤ) :
    (tickFeed s feed now).2 = appendCapped feed ⟨now, round4 (tick s).angle⟩ ∧
    (tickFeed s feed now).2.length ≤ 1000 ∧
    (feed.length = 1000 →
      (tickFeed s feed now).2 =
        feed.tail ++ [⟨now, round4 (tick s).angle⟩]) ∧
    (∀ samples : List FeedEntry, samples.length = 1001 →
      List.foldl appendCapped [] samples = samples.tail ∧
      (List.foldl appendCapped [] samples).length = 1000) := by
  have hfst : (tickFeed s feed now).2 =
      appendCapped feed ⟨now, round4 (tick s).angle⟩ := by
    unfold tickFeed
    set_option maxRecDepth 10000 in
    rfl
  refine ⟨hfst, ?_, ?_, ?_⟩
  · rw [hfst, length_appendCapped]
    omega
  · intro hfull
    rw [hfst, appendCapped_full feed _ hfull]
  · intro samples hlen
    have hfold := foldl_appendCapped samples [] (by simp)
    rw [List.nil_append] at hfold
    have htail : lastN samples = samples.tail := by
      unfold lastN
      have h1 : samples.length - 1000 = 1 := by omega
      rw [h1]
      cases samples with
      | nil => simp at hlen
      | cons a as =>
        rw [List.drop_succ_cons, List.drop_zero]
        rfl
    refine ⟨by rw [hfold, htail], ?_⟩
    rw [hfold, htail]
    cases samples with
    | nil => simp at hlen
    | cons a as =>
      simp at hlen ⊢
      omega

/-- Closed instance of `feed_cap`: appending to a full feed of 1000 equal
entries keeps length 1000 and evicts the head, and 1001 folded samples end
as the stream minus its first element. -/
theorem feed_cap_witness :
    (tickFeed s0 (List.replicate 1000 ⟨0, 0⟩) 5).2 =
      (List.replicate 1000 (⟨0, 0⟩ : FeedEntry)).tail ++
        [⟨5, round4 (tick s0).angle⟩] ∧
    List.foldl appendCapped [] (List.replicate 1001 (⟨0, 0⟩ : FeedEntry)) =
      (List.replicate 1001 (⟨0, 0⟩ : FeedEntry)).tail := by
  have h := feed_cap s0 (List.replicate 1000 ⟨0, 0⟩) 5
  exact ⟨h.2.2.1 (List.length_replicate 1000 _),
    (h.2.2.2 _ (List.length_replicate 1001 _)).1⟩

/-- Closed instance of `tickRun_total_iff`: at a degenerate state with zero
velocity and zero stored radius the tick run fails (a division by zero is
raised). -/
theorem tickRun_total_iff_witness :
    ¬ (tickRun
        { vx := 0, vy := 0, radius := 0, altitude := 0, angle := 0,
          status := "Idle", burn_rate_x := none, burn_rate_y := none,
          burn_remaining := none } : Option State).isSome := by
  intro h
  set deg : State :=
    { vx := 0, vy := 0, radius := 0, altitude := 0, angle := 0,
      status := "Idle", burn_rate_x := none, burn_rate_y := none,
      burn_remaining := none } with hdeg
  have hb : burnPhase deg = deg := burnPhase_of_nonpos deg (by norm_num [hdeg])
  have hsp : hypot (burnPhase deg).vx (burnPhase deg).vy = 0 := by
    rw [hb]
    show hypot 0 0 = 0
    unfold hypot
    norm_num
  exact ((tickRun_total_iff deg).1.mp h hsp) rfl

end Orbit
